import Mathlib

/-!
Verification of the SLM_agent repository's ReAct multi-agent control loop
against its specification.

The development shallowly embeds the Python sources:
* `src/slm_agent_react/state/verilog_state.py`   — the shared `VerilogState` record
* `src/slm_agent_react/utils/budget_manager.py`  — `BudgetManager.get_budget_zone`, `should_stop`
* `src/slm_agent_react/graph/workflow.py`        — the five node functions and `route_from_planner`
* `src/slm_agent_react/agents/planner_agent.py`  — `PlannerAgent.decide_next_action`
* `src/slm_agent_react/agents/base_agent.py`     — `BaseReActAgent.parse_json_output`
* `src/slm_agent/llm/response_parser.py`         — `ResponseParser.extract_verilog`
* `src/slm_agent/testing/test_runner.py`         — `TestRunner.categorize_errors`

Modelling conventions:
* Python `int` counters are modelled as `Nat`: every counter field is
  initialised to a non-negative value and only ever incremented or reset
  to 0, so all reachable values are non-negative.  Where Python
  subtraction may go negative (`remaining = cap - used`) the model
  computes in `Int`.
* Python `dict` fields are association lists with first-match lookup and
  update-in-place-or-append assignment (Python dicts have unique keys, so
  the two semantics agree).
* Calls to external collaborators (the LLM policy behind
  `executor.invoke`, the specialist agents' LLM/tool results,
  `json.loads`) are not code of this repository; they enter the model as
  explicit function arguments, so every theorem quantifies over their
  behaviour.
* `time.time()` is external; the timestamp it produced is carried in the
  state as an opaque `Int` field (`start_time`), exactly as the Python
  state carries a float it never reads in the control loop.
-/

/-- Result record written by the tester specialist; models the keys of the
dict read by `tester_node` (`passed`, `tier_achieved`, `errors`). -/
structure TesterResult where
  passed : Bool
  tier_achieved : Nat
  errors : String
deriving DecidableEq

/-- Shallow embedding of the `VerilogState` TypedDict
(`src/slm_agent_react/state/verilog_state.py`, lines 7–66), field for field. -/
structure VerilogState where
  task_description : String
  context_files : List (String × String)
  target_file : String
  current_code : Option String
  code_history : List String
  best_code : Option String
  structure_valid : Bool
  port_analysis : Option String
  test_results : Option TesterResult
  validation_cache : List (String × String)
  current_errors : Option String
  error_category : Option String
  error_history : List (String × List String)
  consecutive_failures : Nat
  agent_scratchpad : List String
  last_agent : String
  next_action : String
  planner_reasoning : List String
  agent_invocations : Nat
  max_invocations : Nat
  code_refinements : Nat
  planner_calls : Nat
  specialist_calls : Nat
  current_tier : Nat
  target_tier : Nat
  tier_achievements : List (Nat × Bool)
  quality_metrics : List (String × String)
  iteration : Nat
  success : Bool
  completed : Bool
  timeout : Bool
  budget_exhausted : Bool
  start_time : Int
  execution_time : Int
  final_message : String
deriving DecidableEq

/-- Python dict lookup with default (`d.get(k, dflt)`) on an association list. -/
def dictGet (d : List (Nat × Bool)) (k : Nat) (dflt : Bool) : Bool :=
  match d with
  | [] => dflt
  | (k₁, v) :: t => if k₁ = k then v else dictGet t k dflt

/-- Python dict assignment (`d[k] = v`): update the existing key in place,
else append. -/
def dictSet (d : List (Nat × Bool)) (k : Nat) (v : Bool) : List (Nat × Bool) :=
  match d with
  | [] => [(k, v)]
  | (k₁, v₁) :: t => if k₁ = k then (k, v) :: t else (k₁, v₁) :: dictSet t k v

/-- `create_initial_state` (`verilog_state.py`, lines 69–142).  The
`time.time()` call is external, so the timestamp is a parameter. -/
def create_initial_state (task_description : String)
    (context_files : List (String × String)) (target_file : String)
    (max_invocations : Nat) (now : Int) : VerilogState :=
  { task_description := task_description
    context_files := context_files
    target_file := target_file
    current_code := none
    code_history := []
    best_code := none
    structure_valid := false
    port_analysis := none
    test_results := none
    validation_cache := []
    current_errors := none
    error_category := none
    error_history := []
    consecutive_failures := 0
    agent_scratchpad := []
    last_agent := ""
    next_action := "planner"
    planner_reasoning := []
    agent_invocations := 0
    max_invocations := max_invocations
    code_refinements := 0
    planner_calls := 0
    specialist_calls := 0
    current_tier := 0
    target_tier := 3
    tier_achievements := [(1, false), (2, false), (3, false), (4, false)]
    quality_metrics := []
    iteration := 0
    success := false
    completed := false
    timeout := false
    budget_exhausted := false
    start_time := now
    execution_time := 0
    final_message := "" }

/-- `BudgetManager.get_budget_zone` (`budget_manager.py`, lines 33–52).
`remaining` is computed in `Int` because Python subtraction may go
negative.  `total_budget` is the manager's `self.total_budget`. -/
def get_budget_zone (total_budget used : Nat) : String :=
  let remaining : Int := (total_budget : Int) - (used : Int)
  if remaining ≥ 40 then "GREEN"
  else if remaining ≥ 20 then "YELLOW"
  else if remaining ≥ 10 then "ORANGE"
  else "RED"

/-- `BudgetManager.should_stop` (`budget_manager.py`, lines 139–165). -/
def should_stop (total_budget : Nat) (s : VerilogState) : Bool × String :=
  if s.agent_invocations ≥ total_budget then (true, "Budget exhausted")
  else if s.success && dictGet s.tier_achievements 3 false then
    (true, "Success achieved (Tier 3)")
  else if s.consecutive_failures ≥ 5 then (true, "Too many consecutive failures")
  else if s.completed then (true, "Task completed")
  else (false, "Continue")

/-- C1: `should_stop` tests its four conditions in the fixed order
budget-exhausted, success-with-tier-3, consecutive-failures ≥ 5, completed
flag; the first matching condition wins and yields that condition's
distinct reason string, and when none matches the result is
`(false, "Continue")`. -/
theorem should_stop_order (cap : Nat) (s : VerilogState) :
    (s.agent_invocations ≥ cap → should_stop cap s = (true, "Budget exhausted")) ∧
    (s.agent_invocations < cap →
      s.success = true → dictGet s.tier_achievements 3 false = true →
      should_stop cap s = (true, "Success achieved (Tier 3)")) ∧
    (s.agent_invocations < cap →
      ¬(s.success = true ∧ dictGet s.tier_achievements 3 false = true) →
      s.consecutive_failures ≥ 5 →
      should_stop cap s = (true, "Too many consecutive failures")) ∧
    (s.agent_invocations < cap →
      ¬(s.success = true ∧ dictGet s.tier_achievements 3 false = true) →
      s.consecutive_failures < 5 → s.completed = true →
      should_stop cap s = (true, "Task completed")) ∧
    (s.agent_invocations < cap →
      ¬(s.success = true ∧ dictGet s.tier_achievements 3 false = true) →
      s.consecutive_failures < 5 → s.completed = false →
      should_stop cap s = (false, "Continue")) ∧
    ("Budget exhausted" ≠ "Success achieved (Tier 3)" ∧
      "Budget exhausted" ≠ "Too many consecutive failures" ∧
      "Budget exhausted" ≠ "Task completed" ∧
      "Success achieved (Tier 3)" ≠ "Too many consecutive failures" ∧
      "Success achieved (Tier 3)" ≠ "Task completed" ∧
      "Too many consecutive failures" ≠ "Task completed") := by
  refine ⟨?_, ?_, ?_, ?_, ?_, by decide⟩
  · intro h
    simp [should_stop, h]
  · intro h₁ h₂ h₃
    simp [should_stop, h₂, h₃, Nat.not_le.mpr h₁]
  · intro h₁ h₂ h₃
    have hb : ¬(s.success && dictGet s.tier_achievements 3 false) = true := by
      simpa [Bool.and_eq_true] using h₂
    simp [should_stop, Nat.not_le.mpr h₁, hb, h₃]
  · intro h₁ h₂ h₃ h₄
    have hb : ¬(s.success && dictGet s.tier_achievements 3 false) = true := by
      simpa [Bool.and_eq_true] using h₂
    simp [should_stop, Nat.not_le.mpr h₁, hb, Nat.not_le.mpr h₃, h₄]
  · intro h₁ h₂ h₃ h₄
    have hb : ¬(s.success && dictGet s.tier_achievements 3 false) = true := by
      simpa [Bool.and_eq_true] using h₂
    simp [should_stop, Nat.not_le.mpr h₁, hb, Nat.not_le.mpr h₃, h₄]

/-- C1 witness: the budget-exhausted branch evaluated on a concrete state. -/
theorem should_stop_order_witness :
    should_stop 50 (create_initial_state "t" [] "f" 50 0) = (false, "Continue") := by
  have h := (should_stop_order 50 (create_initial_state "t" [] "f" 50 0)).2.2.2.2.1
  exact h (by decide) (by decide) (by decide) (by decide)

/-- Planner decision record: the dict returned by
`PlannerAgent.decide_next_action`, read with `.get(key, default)` in
`planner_node`.  The values actually read are strings. -/
abbrev Decision := List (String × String)

/-- Python `d.get(k, dflt)` on a string-keyed dict. -/
def dGet (d : Decision) (k dflt : String) : String :=
  match d with
  | [] => dflt
  | (k₁, v) :: t => if k₁ = k then v else dGet t k dflt

/-- `planner_node` (`workflow.py`, lines 28–53).  The planner's LLM-backed
decision is external; it enters as the `decision` argument (the node reads
it only when `should_stop` does not fire).  The node constructs
`BudgetManager(state["max_invocations"])`, so the cap is
`s.max_invocations`. -/
def planner_node (decision : Decision) (s : VerilogState) : VerilogState :=
  if (should_stop s.max_invocations s).1 then
    { s with completed := true, next_action := "complete" }
  else
    { s with next_action := dGet decision "next_action" "complete"
             planner_reasoning := s.planner_reasoning ++ [dGet decision "reasoning" ""]
             agent_invocations := s.agent_invocations + 1
             planner_calls := s.planner_calls + 1
             last_agent := "planner" }

/-- Result record returned by `CodeGenAgent.generate_code`: the keys read
by `code_gen_node` (`success`, `code`). -/
structure GenResult where
  success : Bool
  code : String
deriving DecidableEq

/-- Result record returned by `ValidatorAgent.validate`: the keys read by
`validator_node` (`valid`, `port_analysis`, `tier_achieved`, `issues`). -/
structure ValidatorResult where
  valid : Bool
  port_analysis : Option String
  tier_achieved : Nat
  issues : List String
deriving DecidableEq

/-- Result record returned by `AnalyzerAgent.analyze`: the keys read by
`analyzer_node` (`category`, `suggestions`). -/
structure AnalyzerResult where
  category : String
  suggestions : List String
deriving DecidableEq

/-- `code_gen_node` (`workflow.py`, lines 55–78).  Python's
`not state["best_code"]` is true when `best_code` is `None` or the empty
string; the length comparison is only reached when `best_code` is a
non-empty string (short-circuit `or`). -/
def code_gen_node (r : GenResult) (s : VerilogState) : VerilogState :=
  let s₁ :=
    if r.success then
      { s with current_code := some r.code
               code_history := s.code_history ++ [r.code]
               code_refinements := s.code_refinements + 1
               best_code :=
                 match s.best_code with
                 | none => some r.code
                 | some b =>
                   if b = "" ∨ r.code.length > b.length then some r.code else some b
               consecutive_failures := 0 }
    else
      { s with consecutive_failures := s.consecutive_failures + 1 }
  { s₁ with agent_invocations := s₁.agent_invocations + 1
            specialist_calls := s₁.specialist_calls + 1
            last_agent := "code_gen"
            iteration := s₁.iteration + 1 }

/-- `validator_node` (`workflow.py`, lines 80–104). -/
def validator_node (r : ValidatorResult) (s : VerilogState) : VerilogState :=
  let s₁ := { s with structure_valid := r.valid, port_analysis := r.port_analysis }
  let s₂ :=
    if r.tier_achieved > s₁.current_tier then
      { s₁ with current_tier := r.tier_achieved
                tier_achievements := dictSet s₁.tier_achievements r.tier_achieved true }
    else s₁
  let s₃ :=
    if r.valid then s₂
    else { s₂ with current_errors := some (String.intercalate "\n" r.issues) }
  { s₃ with agent_invocations := s₃.agent_invocations + 1
            specialist_calls := s₃.specialist_calls + 1
            last_agent := "validator" }

/-- `tester_node` (`workflow.py`, lines 106–135).  `exit_on_tier3` is
`config.exit_on_tier3`. -/
def tester_node (exit_on_tier3 : Bool) (r : TesterResult) (s : VerilogState) :
    VerilogState :=
  let s₁ := { s with test_results := some r }
  let s₂ :=
    if r.tier_achieved > s₁.current_tier then
      { s₁ with current_tier := r.tier_achieved
                tier_achievements := dictSet s₁.tier_achievements r.tier_achieved true }
    else s₁
  let s₃ :=
    if r.passed then
      let s₂' := { s₂ with success := true }
      if exit_on_tier3 && decide (r.tier_achieved ≥ 3) then
        { s₂' with completed := true }
      else s₂'
    else
      { s₂ with current_errors := some r.errors
                consecutive_failures := s₂.consecutive_failures + 1 }
  { s₃ with agent_invocations := s₃.agent_invocations + 1
            specialist_calls := s₃.specialist_calls + 1
            last_agent := "tester" }

/-- `analyzer_node` (`workflow.py`, lines 137–155). -/
def analyzer_node (r : AnalyzerResult) (s : VerilogState) : VerilogState :=
  { s with error_category := some r.category
           error_history := s.error_history ++ [(r.category, r.suggestions)]
           agent_invocations := s.agent_invocations + 1
           specialist_calls := s.specialist_calls + 1
           last_agent := "analyzer" }

/-- `route_from_planner` (`workflow.py`, lines 168–186).  `none` models the
LangGraph `END` sentinel; `some name` routes to that specialist node. -/
def route_from_planner (s : VerilogState) : Option String :=
  let next_action := s.next_action
  if s.completed || next_action = "complete" then none
  else if s.agent_invocations ≥ s.max_invocations then none
  else if next_action = "code_gen" ∨ next_action = "validator" ∨
      next_action = "tester" ∨ next_action = "analyzer" then some next_action
  else none

/-- C2 counterexample: with cap 50, `get_budget_zone` maps `used = 35`
(remaining 15) to `"ORANGE"`, not the claimed `"YELLOW"`, and `used = 42`
(remaining 8) to `"RED"`, not the claimed `"ORANGE"`. -/
theorem get_budget_zone_claim_false :
    get_budget_zone 50 35 = "ORANGE" ∧ get_budget_zone 50 35 ≠ "YELLOW" ∧
    get_budget_zone 50 42 = "RED" ∧ get_budget_zone 50 42 ≠ "ORANGE" := by
  decide

/-- C2 (amended): the zone is computed from `remaining = cap - used` with
thresholds `remaining ≥ 40 → GREEN`, `≥ 20 → YELLOW`, `≥ 10 → ORANGE`,
else `RED`; consequently, with cap 50, used 10 gives GREEN, used 35 gives
ORANGE, used 42 gives RED and used 48 gives RED. -/
theorem get_budget_zone_amended (cap used : Nat) :
    ((cap : Int) - used ≥ 40 → get_budget_zone cap used = "GREEN") ∧
    (20 ≤ (cap : Int) - used → (cap : Int) - used < 40 →
      get_budget_zone cap used = "YELLOW") ∧
    (10 ≤ (cap : Int) - used → (cap : Int) - used < 20 →
      get_budget_zone cap used = "ORANGE") ∧
    ((cap : Int) - used < 10 → get_budget_zone cap used = "RED") ∧
    (get_budget_zone 50 10 = "GREEN" ∧ get_budget_zone 50 35 = "ORANGE" ∧
      get_budget_zone 50 42 = "RED" ∧ get_budget_zone 50 48 = "RED") := by
  refine ⟨?_, ?_, ?_, ?_, by decide⟩
  · intro h
    dsimp only [get_budget_zone]
    rw [if_pos (by omega)]
  · intro h₁ h₂
    dsimp only [get_budget_zone]
    rw [if_neg (by omega), if_pos (by omega)]
  · intro h₁ h₂
    dsimp only [get_budget_zone]
    rw [if_neg (by omega), if_neg (by omega), if_pos (by omega)]
  · intro h
    dsimp only [get_budget_zone]
    rw [if_neg (by omega), if_neg (by omega), if_neg (by omega)]

/-- C2 witness: the GREEN threshold applied at cap 50, used 10. -/
theorem get_budget_zone_amended_witness : get_budget_zone 50 10 = "GREEN" :=
  (get_budget_zone_amended 50 10).1 (by decide)

/-- Concrete mid-session state used to exhibit the absence of a wall-clock
stop condition: the session started at timestamp 0 and, at any later
evaluation time (in particular more than `max_time_seconds = 900` seconds
later), 10 of 50 invocations are used and no other stop condition holds. -/
def overtimeState : VerilogState :=
  { create_initial_state "task" [] "target" 50 0 with
      agent_invocations := 10
      planner_calls := 5
      specialist_calls := 5
      next_action := "code_gen" }

/-- C3 (code divergence): the control loop has no wall-clock stop
condition.  `should_stop` and `route_from_planner` are invariant under
arbitrary changes of every time-related state field (`start_time`,
`execution_time`, `timeout`) — no clock value is even an input to them —
and on a concrete session state past the configured 900-second limit with
invocations remaining, `should_stop` returns `(false, "Continue")` and the
router keeps dispatching instead of terminating. -/
theorem stop_conditions_ignore_time :
    (∀ (cap : Nat) (s : VerilogState) (t e : Int) (b : Bool),
      should_stop cap { s with start_time := t, execution_time := e, timeout := b } =
        should_stop cap s) ∧
    (∀ (s : VerilogState) (t e : Int) (b : Bool),
      route_from_planner { s with start_time := t, execution_time := e, timeout := b } =
        route_from_planner s) ∧
    should_stop 50 overtimeState = (false, "Continue") ∧
    route_from_planner overtimeState = some "code_gen" :=
  ⟨fun _ _ _ _ _ => rfl, fun _ _ _ _ => rfl, by decide, by decide⟩

/-- One step of the LangGraph workflow: application of one of the five
node functions, with the external agent's result (and, for the planner,
the decision) arbitrary. -/
inductive WorkflowStep (exit_on_tier3 : Bool) : VerilogState → VerilogState → Prop where
  | planner (d : Decision) (s : VerilogState) :
      WorkflowStep exit_on_tier3 s (planner_node d s)
  | code_gen (r : GenResult) (s : VerilogState) :
      WorkflowStep exit_on_tier3 s (code_gen_node r s)
  | validator (r : ValidatorResult) (s : VerilogState) :
      WorkflowStep exit_on_tier3 s (validator_node r s)
  | tester (r : TesterResult) (s : VerilogState) :
      WorkflowStep exit_on_tier3 s (tester_node exit_on_tier3 r s)
  | analyzer (r : AnalyzerResult) (s : VerilogState) :
      WorkflowStep exit_on_tier3 s (analyzer_node r s)

theorem dictGet_dictSet_true (d : List (Nat × Bool)) (j k : Nat)
    (h : dictGet d k false = true) : dictGet (dictSet d j true) k false = true := by
  induction d with
  | nil => simp [dictGet] at h
  | cons hd t ih =>
    obtain ⟨k₁, v⟩ := hd
    by_cases hj : k₁ = j
    · subst hj
      by_cases hk : k₁ = k
      · subst hk
        simp [dictGet, dictSet]
      · simp [dictGet, dictSet, hk] at h ⊢
        exact h
    · by_cases hk : k₁ = k
      · subst hk
        simp [dictGet, dictSet, hj] at h ⊢
        exact h
      · simp [dictGet, dictSet, hj, hk] at h ⊢
        exact ih h

theorem dictGet_dictSet_self (d : List (Nat × Bool)) (j : Nat) :
    dictGet (dictSet d j true) j false = true := by
  induction d with
  | nil => simp [dictGet, dictSet]
  | cons hd t ih =>
    obtain ⟨k₁, v⟩ := hd
    by_cases hj : k₁ = j
    · subst hj
      simp [dictGet, dictSet]
    · simp [dictGet, dictSet, hj]
      exact ih

theorem planner_node_quality_frame (d : Decision) (s : VerilogState) :
    (planner_node d s).tier_achievements = s.tier_achievements ∧
    (planner_node d s).current_tier = s.current_tier ∧
    (planner_node d s).best_code = s.best_code := by
  unfold planner_node
  split <;> exact ⟨rfl, rfl, rfl⟩

theorem code_gen_node_quality_frame (r : GenResult) (s : VerilogState) :
    (code_gen_node r s).tier_achievements = s.tier_achievements ∧
    (code_gen_node r s).current_tier = s.current_tier := by
  obtain ⟨succ, code⟩ := r
  cases succ <;> exact ⟨rfl, rfl⟩

theorem analyzer_node_quality_frame (r : AnalyzerResult) (s : VerilogState) :
    (analyzer_node r s).tier_achievements = s.tier_achievements ∧
    (analyzer_node r s).current_tier = s.current_tier ∧
    (analyzer_node r s).best_code = s.best_code :=
  ⟨rfl, rfl, rfl⟩

theorem validator_node_tier_eq (r : ValidatorResult) (s : VerilogState) :
    (validator_node r s).current_tier =
      (if r.tier_achieved > s.current_tier then r.tier_achieved else s.current_tier) ∧
    (validator_node r s).tier_achievements =
      (if r.tier_achieved > s.current_tier then
        dictSet s.tier_achievements r.tier_achieved true
      else s.tier_achievements) ∧
    (validator_node r s).best_code = s.best_code := by
  obtain ⟨valid, pa, tier, issues⟩ := r
  cases valid <;> by_cases hp : tier > s.current_tier <;>
    simp [validator_node, hp]

theorem tester_node_tier_eq (cfg : Bool) (r : TesterResult) (s : VerilogState) :
    (tester_node cfg r s).current_tier =
      (if r.tier_achieved > s.current_tier then r.tier_achieved else s.current_tier) ∧
    (tester_node cfg r s).tier_achievements =
      (if r.tier_achieved > s.current_tier then
        dictSet s.tier_achievements r.tier_achieved true
      else s.tier_achievements) ∧
    (tester_node cfg r s).best_code = s.best_code := by
  obtain ⟨passed, tier, errs⟩ := r
  cases passed <;> by_cases hp : tier > s.current_tier <;>
    simp [tester_node, hp, apply_ite]

/-- C4: every workflow step preserves achieved tier flags (once a tier's
achievement flag is true it stays true) and never lowers `current_tier`;
after a validator or tester step whose result reports a `tier_achieved`
above the current tier, `current_tier` equals that reported tier and the
corresponding achievement flag is set. -/
theorem workflow_tier_monotone (cfg : Bool) :
    (∀ s s' : VerilogState, WorkflowStep cfg s s' →
      (∀ k, dictGet s.tier_achievements k false = true →
        dictGet s'.tier_achievements k false = true) ∧
      s.current_tier ≤ s'.current_tier) ∧
    (∀ (s : VerilogState) (r : ValidatorResult), r.tier_achieved > s.current_tier →
      (validator_node r s).current_tier = r.tier_achieved ∧
      dictGet (validator_node r s).tier_achievements r.tier_achieved false = true) ∧
    (∀ (s : VerilogState) (r : TesterResult), r.tier_achieved > s.current_tier →
      (tester_node cfg r s).current_tier = r.tier_achieved ∧
      dictGet (tester_node cfg r s).tier_achievements r.tier_achieved false = true) := by
  refine ⟨?_, ?_, ?_⟩
  · intro s s' hstep
    cases hstep with
    | planner d s =>
      obtain ⟨ht, hc, _⟩ := planner_node_quality_frame d s
      exact ⟨fun k hk => by rw [ht]; exact hk, by rw [hc]⟩
    | code_gen r s =>
      obtain ⟨ht, hc⟩ := code_gen_node_quality_frame r s
      exact ⟨fun k hk => by rw [ht]; exact hk, by rw [hc]⟩
    | validator r s =>
      obtain ⟨hc, ht, _⟩ := validator_node_tier_eq r s
      refine ⟨fun k hk => ?_, ?_⟩
      · rw [ht]
        split
        · exact dictGet_dictSet_true _ _ _ hk
        · exact hk
      · rw [hc]
        split
        · omega
        · exact le_refl _
    | tester r s =>
      obtain ⟨hc, ht, _⟩ := tester_node_tier_eq cfg r s
      refine ⟨fun k hk => ?_, ?_⟩
      · rw [ht]
        split
        · exact dictGet_dictSet_true _ _ _ hk
        · exact hk
      · rw [hc]
        split
        · omega
        · exact le_refl _
    | analyzer r s =>
      obtain ⟨ht, hc, _⟩ := analyzer_node_quality_frame r s
      exact ⟨fun k hk => by rw [ht]; exact hk, by rw [hc]⟩
  · intro s r hp
    obtain ⟨hc, ht, _⟩ := validator_node_tier_eq r s
    rw [hc, ht, if_pos hp, if_pos hp]
    exact ⟨rfl, dictGet_dictSet_self _ _⟩
  · intro s r hp
    obtain ⟨hc, ht, _⟩ := tester_node_tier_eq cfg r s
    rw [hc, ht, if_pos hp, if_pos hp]
    exact ⟨rfl, dictGet_dictSet_self _ _⟩

/-- C4 witness: a tester step that reports tier 3 above current tier 0. -/
theorem workflow_tier_monotone_witness :
    (tester_node true ⟨true, 3, ""⟩ (create_initial_state "t" [] "f" 50 0)).current_tier = 3 ∧
    dictGet (tester_node true ⟨true, 3, ""⟩
      (create_initial_state "t" [] "f" 50 0)).tier_achievements 3 false = true :=
  (workflow_tier_monotone true).2.2 (create_initial_state "t" [] "f" 50 0)
    ⟨true, 3, ""⟩ (by decide)

theorem code_gen_node_best_some (r : GenResult) (s : VerilogState) (b : String)
    (h : s.best_code = some b) (hs : r.success = true) :
    (code_gen_node r s).best_code =
      (if b = "" ∨ r.code.length > b.length then some r.code else some b) := by
  obtain ⟨succ, code⟩ := r
  cases succ
  · exact Bool.noConfusion hs
  · simp [code_gen_node, h]

theorem code_gen_node_best_fail (r : GenResult) (s : VerilogState)
    (hs : r.success = false) : (code_gen_node r s).best_code = s.best_code := by
  obtain ⟨succ, code⟩ := r
  cases succ
  · rfl
  · exact Bool.noConfusion hs

/-- C9: once `best_code` is set to some candidate it is never unset, and
across any workflow step it either stays the same or is replaced by a
strictly longer candidate; `current_code` is replaced wholesale by the
newly generated code on every successful generation and is untouched on a
failed one. -/
theorem best_code_monotone (cfg : Bool) :
    (∀ s s' : VerilogState, WorkflowStep cfg s s' → ∀ b, s.best_code = some b →
      s'.best_code = some b ∨ ∃ c, s'.best_code = some c ∧ b.length < c.length) ∧
    (∀ (r : GenResult) (s : VerilogState),
      (code_gen_node r s).current_code =
        (if r.success then some r.code else s.current_code)) := by
  constructor
  · intro s s' hstep b hb
    cases hstep with
    | planner d s =>
      exact Or.inl (by rw [(planner_node_quality_frame d s).2.2]; exact hb)
    | code_gen r s =>
      by_cases hs : r.success = true
      · rw [code_gen_node_best_some r s b hb hs]
        by_cases hlong : b = "" ∨ r.code.length > b.length
        · rw [if_pos hlong]
          rcases hlong with hb0 | hlen
          · subst hb0
            by_cases hc0 : r.code = ""
            · exact Or.inl (by rw [hc0])
            · refine Or.inr ⟨r.code, rfl, ?_⟩
              have hne : r.code.length ≠ 0 := by
                intro h0
                apply hc0
                cases hrc : r.code with
                | mk cl =>
                  rw [hrc] at h0
                  have hcl : cl = [] := by
                    simpa [String.length, List.length_eq_zero] using h0
                  rw [hcl]
              simpa using Nat.pos_of_ne_zero hne
          · exact Or.inr ⟨r.code, rfl, hlen⟩
        · rw [if_neg hlong]
          exact Or.inl rfl
      · rw [Bool.not_eq_true] at hs
        rw [code_gen_node_best_fail r s hs]
        exact Or.inl hb
    | validator r s =>
      exact Or.inl (by rw [(validator_node_tier_eq r s).2.2]; exact hb)
    | tester r s =>
      exact Or.inl (by rw [(tester_node_tier_eq cfg r s).2.2]; exact hb)
    | analyzer r s =>
      exact Or.inl (by rw [(analyzer_node_quality_frame r s).2.2]; exact hb)
  · intro r s
    obtain ⟨succ, code⟩ := r
    cases succ <;> rfl

/-- Concrete mid-session state whose `best_code` is already set. -/
def bestState : VerilogState :=
  { overtimeState with best_code := some "mod", current_code := some "mod" }

/-- C9 witness: an analyzer step from a state with `best_code` set. -/
theorem best_code_monotone_witness :
    (analyzer_node ⟨"general", []⟩ bestState).best_code = some "mod" ∨
    ∃ c, (analyzer_node ⟨"general", []⟩ bestState).best_code = some c ∧
      ("mod").length < c.length :=
  (best_code_monotone true).1 bestState (analyzer_node ⟨"general", []⟩ bestState)
    (WorkflowStep.analyzer ⟨"general", []⟩ bestState) "mod" rfl

/-- C10: when `should_stop` fires at the start of a planner step,
`planner_node` only sets `completed := true` and `next_action :=
"complete"` and leaves every other field unchanged — in particular the
invocation counters and the reasoning trace — and the result does not
depend on the planning policy's decision at all. -/
theorem planner_stop_frame (s : VerilogState) (d : Decision)
    (h : (should_stop s.max_invocations s).1 = true) :
    planner_node d s = { s with completed := true, next_action := "complete" } ∧
    (planner_node d s).agent_invocations = s.agent_invocations ∧
    (planner_node d s).planner_calls = s.planner_calls ∧
    (planner_node d s).specialist_calls = s.specialist_calls ∧
    (planner_node d s).planner_reasoning = s.planner_reasoning ∧
    (planner_node d s).next_action = "complete" ∧
    (planner_node d s).completed = true := by
  unfold planner_node
  rw [if_pos h]
  exact ⟨rfl, rfl, rfl, rfl, rfl, rfl, rfl⟩

/-- Concrete state on which `should_stop` fires (consecutive failures). -/
def stoppedState : VerilogState :=
  { create_initial_state "t" [] "f" 50 0 with consecutive_failures := 7 }

/-- C10 witness: the stopping planner step on a concrete state. -/
theorem planner_stop_frame_witness :
    planner_node [("next_action", "tester")] stoppedState =
      { stoppedState with completed := true, next_action := "complete" } :=
  (planner_stop_frame stoppedState [("next_action", "tester")] (by decide)).1

theorem code_gen_fail_eq (r : GenResult) (s : VerilogState) (h : r.success = false) :
    code_gen_node r s =
      { s with consecutive_failures := s.consecutive_failures + 1
               agent_invocations := s.agent_invocations + 1
               specialist_calls := s.specialist_calls + 1
               last_agent := "code_gen"
               iteration := s.iteration + 1 } := by
  obtain ⟨succ, code⟩ := r
  cases succ
  · rfl
  · exact Bool.noConfusion h

theorem code_gen_fail_iter (r : GenResult) (h : r.success = false) (n : Nat)
    (s : VerilogState) :
    ((code_gen_node r)^[n] s).consecutive_failures = s.consecutive_failures + n ∧
    ((code_gen_node r)^[n] s).agent_invocations = s.agent_invocations + n ∧
    ((code_gen_node r)^[n] s).max_invocations = s.max_invocations ∧
    ((code_gen_node r)^[n] s).success = s.success ∧
    ((code_gen_node r)^[n] s).tier_achievements = s.tier_achievements := by
  induction n with
  | zero => simp
  | succ m ih =>
    obtain ⟨h1, h2, h3, h4, h5⟩ := ih
    rw [Function.iterate_succ_apply', code_gen_fail_eq r _ h]
    exact ⟨by simp [h1]; omega, by simp [h2]; omega, by simp [h3], by simp [h4],
      by simp [h5]⟩

/-- C5: the consecutive-failures counter resets to 0 on a successful
generation and increments on a failed generation or a failed test; after
five failed generations in a row from a state with invocation budget
remaining and no tier-3 success, the next planner step stops with the
consecutive-failures reason (sets `completed`/`complete`) and the router
terminates the loop. -/
theorem consecutive_failures_stop (cfg : Bool) :
    (∀ (r : GenResult) (s : VerilogState), r.success = true →
      (code_gen_node r s).consecutive_failures = 0) ∧
    (∀ (r : GenResult) (s : VerilogState), r.success = false →
      (code_gen_node r s).consecutive_failures = s.consecutive_failures + 1) ∧
    (∀ (r : TesterResult) (s : VerilogState), r.passed = false →
      (tester_node cfg r s).consecutive_failures = s.consecutive_failures + 1) ∧
    (∀ (s : VerilogState) (r : GenResult) (d : Decision), r.success = false →
      s.agent_invocations + 5 < s.max_invocations →
      ¬(s.success = true ∧ dictGet s.tier_achievements 3 false = true) →
      should_stop ((code_gen_node r)^[5] s).max_invocations ((code_gen_node r)^[5] s) =
        (true, "Too many consecutive failures") ∧
      planner_node d ((code_gen_node r)^[5] s) =
        { (code_gen_node r)^[5] s with completed := true, next_action := "complete" } ∧
      route_from_planner (planner_node d ((code_gen_node r)^[5] s)) = none) := by
  refine ⟨?_, ?_, ?_, ?_⟩
  · intro r s h
    obtain ⟨succ, code⟩ := r
    cases succ
    · exact Bool.noConfusion h
    · rfl
  · intro r s h
    rw [code_gen_fail_eq r s h]
  · intro r s h
    obtain ⟨passed, tier, errs⟩ := r
    cases passed
    · by_cases hp : tier > s.current_tier <;> simp [tester_node, hp]
    · exact Bool.noConfusion h
  · intro s r d hrf hbud hns
    obtain ⟨h1, h2, h3, h4, h5⟩ := code_gen_fail_iter r hrf 5 s
    have hstop : should_stop ((code_gen_node r)^[5] s).max_invocations
        ((code_gen_node r)^[5] s) = (true, "Too many consecutive failures") := by
      have hA : ¬(((code_gen_node r)^[5] s).agent_invocations ≥
          ((code_gen_node r)^[5] s).max_invocations) := by
        rw [h2, h3]; omega
      have hB : ¬((((code_gen_node r)^[5] s).success &&
          dictGet ((code_gen_node r)^[5] s).tier_achievements 3 false) = true) := by
        rw [h4, h5, Bool.and_eq_true]
        intro hx
        exact hns ⟨hx.1, hx.2⟩
      have hC : ((code_gen_node r)^[5] s).consecutive_failures ≥ 5 := by
        rw [h1]; omega
      unfold should_stop
      rw [if_neg hA, if_neg hB, if_pos hC]
    have hstop1 : (should_stop ((code_gen_node r)^[5] s).max_invocations
        ((code_gen_node r)^[5] s)).1 = true := by rw [hstop]
    have hplanner : planner_node d ((code_gen_node r)^[5] s) =
        { (code_gen_node r)^[5] s with completed := true, next_action := "complete" } := by
      unfold planner_node
      rw [if_pos hstop1]
    have hroute : route_from_planner (planner_node d ((code_gen_node r)^[5] s)) = none := by
      rw [hplanner]
      simp [route_from_planner]
    exact ⟨hstop, hplanner, hroute⟩

/-- C5 witness: five failed generations from the initial state with cap 50
stop the next planner step with the consecutive-failures reason. -/
theorem consecutive_failures_stop_witness :
    should_stop
        ((code_gen_node ⟨false, ""⟩)^[5] (create_initial_state "t" [] "f" 50 0)).max_invocations
        ((code_gen_node ⟨false, ""⟩)^[5] (create_initial_state "t" [] "f" 50 0)) =
      (true, "Too many consecutive failures") :=
  ((consecutive_failures_stop true).2.2.2 (create_initial_state "t" [] "f" 50 0)
    ⟨false, ""⟩ [] rfl (by decide) (by decide)).1

/-- Membership test `"next_action" in decision` on the parsed dict. -/
def hasKey (d : Decision) (k : String) : Bool := d.any (fun kv => kv.1 == k)

/-- `BaseReActAgent.parse_json_output` (`base_agent.py`, lines 112–132).
`json.loads` is a standard-library call external to this repository; it
enters as the `jsonParse` argument, returning the parsed top-level object
(a JSON text that starts with a brace and parses successfully is an
object) or `none` for a `JSONDecodeError`.  `find`/`rfind` succeed exactly
when the containment tests `"{" in output` / `"}" in output` do, which the
match on the two `findIdx?` results encodes. -/
def parse_json_output (jsonParse : String → Option Decision) (output : String) :
    Option Decision :=
  let cs := output.data
  match cs.findIdx? (· == '\x7b'), cs.reverse.findIdx? (· == '\x7d') with
  | some istart, some irev =>
      let iend := cs.length - 1 - irev + 1
      jsonParse (String.mk ((cs.take iend).drop istart))
  | _, _ => none

/-- `PlannerAgent.decide_next_action` (`planner_agent.py`, lines 51–94),
after the prompt formatting: the external policy call
(`self.executor.invoke` plus output lookup) either raises — modelled as
`Except.error` carrying the exception text — or returns the output
string.  The bare `except Exception` makes the function total: an error
becomes the `complete` decision, and a missing/empty/`next_action`-less
parse becomes the default `code_gen` decision (Python's
`if decision and "next_action" in decision`, where an empty dict is
falsy). -/
def decide_next_action (jsonParse : String → Option Decision)
    (policy : Except String String) : Decision :=
  match policy with
  | .error e =>
      [("next_action", "complete"), ("reasoning", "Error occurred: " ++ e)]
  | .ok output =>
    match parse_json_output jsonParse output with
    | some decision =>
        if !decision.isEmpty && hasKey decision "next_action" then decision
        else [("next_action", "code_gen"),
              ("reasoning", "Default action due to parsing error")]
    | none =>
        [("next_action", "code_gen"),
         ("reasoning", "Default action due to parsing error")]

theorem findIdx_none_of_not_mem (c : Char) (l : List Char)
    (h : c ∉ l) : l.findIdx? (· == c) = none := by
  induction l with
  | nil => rfl
  | cons a t ih =>
    have h1 : c ≠ a ∧ c ∉ t := by simpa using h
    rw [List.findIdx?_cons]
    have ha : (a == c) = false := beq_eq_false_iff_ne.mpr (fun hac => h1.1 hac.symm)
    rw [ha]
    simp [ih h1.2]

/-- C6: for a planner invocation past the stop check, an unparsable or
invalid policy output (no brace-delimited JSON text, `json.loads` failure,
or a parsed object without a `next_action` key) yields the default
`code_gen` decision with the default reasoning string, while an exception
raised by the policy itself yields the `complete` decision; the exception
is consumed, never propagated. -/
theorem decide_next_action_defaults :
    (∀ (jsonParse : String → Option Decision) (output : String),
      parse_json_output jsonParse output = none →
      decide_next_action jsonParse (.ok output) =
        [("next_action", "code_gen"),
         ("reasoning", "Default action due to parsing error")]) ∧
    (∀ (jsonParse : String → Option Decision) (output : String) (d : Decision),
      parse_json_output jsonParse output = some d →
      hasKey d "next_action" = false →
      decide_next_action jsonParse (.ok output) =
        [("next_action", "code_gen"),
         ("reasoning", "Default action due to parsing error")]) ∧
    (∀ (jsonParse : String → Option Decision) (output : String),
      '\x7b' ∉ output.data →
      parse_json_output jsonParse output = none) ∧
    (∀ (jsonParse : String → Option Decision) (e : String),
      decide_next_action jsonParse (.error e) =
        [("next_action", "complete"), ("reasoning", "Error occurred: " ++ e)]) ∧
    dGet [("next_action", "code_gen"),
      ("reasoning", "Default action due to parsing error")] "next_action" "" =
        "code_gen" ∧
    dGet [("next_action", "complete"), ("reasoning", "Error occurred: boom")]
      "next_action" "" = "complete" := by
  refine ⟨?_, ?_, ?_, fun _ _ => rfl, by decide, by decide⟩
  · intro jsonParse output h
    simp [decide_next_action, h]
  · intro jsonParse output d h hk
    simp [decide_next_action, h, hk]
  · intro jsonParse output h
    unfold parse_json_output
    dsimp only
    rw [findIdx_none_of_not_mem '\x7b' output.data h]

/-- C6 witness: a brace-less policy output defaults to `code_gen`. -/
theorem decide_next_action_defaults_witness :
    decide_next_action (fun _ => none) (.ok "hello") =
      [("next_action", "code_gen"),
       ("reasoning", "Default action due to parsing error")] :=
  decide_next_action_defaults.1 (fun _ => none) "hello" rfl

/-- Keyword groups of `TestRunner.categorize_errors`
(`test_runner.py`, lines 84–104), in source order. -/
def synKws : List String := ["syntax error", "parse error", "unexpected", "expected"]

def undeclaredKws : List String := ["undeclared", "undefined", "not declared"]

def typeKws : List String := ["type mismatch", "incompatible types"]

def widthKws : List String := ["width", "bit width", "size mismatch"]

def latchKws : List String := ["latch"]

def timingKws : List String := ["timing", "setup", "hold"]

/-- Python substring containment `needle in hay` on character lists. -/
def containsSub (needle hay : List Char) : Bool :=
  match hay with
  | [] => needle.isEmpty
  | _ :: t => needle.isPrefixOf hay || containsSub needle t

/-- `any(kw in errors_lower for kw in kws)` where
`errors_lower = errors.lower()`. -/
def hasKw (errors : String) (kws : List String) : Bool :=
  kws.any (fun kw => containsSub kw.data (errors.data.map Char.toLower))

/-- `TestRunner.categorize_errors` (`test_runner.py`, lines 71–108). -/
def categorize_errors (errors : String) : String :=
  if hasKw errors synKws then "syntax"
  else if hasKw errors undeclaredKws then "undeclared"
  else if hasKw errors typeKws then "type"
  else if hasKw errors widthKws then "width"
  else if hasKw errors latchKws then "latch"
  else if hasKw errors timingKws then "timing"
  else "general"

/-- C8: `categorize_errors` always lands in the fixed closed category set,
matches keyword groups case-insensitively in the priority order syntax,
undeclared, type, width, latch, timing with `"general"` when nothing
matches, and in particular a text containing both "syntax error" and
"undeclared signal" is categorized "syntax". -/
theorem categorize_errors_priority :
    (∀ e, categorize_errors e ∈
      ["syntax", "undeclared", "type", "width", "latch", "timing", "general"]) ∧
    (∀ e, hasKw e synKws = true → categorize_errors e = "syntax") ∧
    (∀ e, hasKw e synKws = false → hasKw e undeclaredKws = true →
      categorize_errors e = "undeclared") ∧
    (∀ e, hasKw e synKws = false → hasKw e undeclaredKws = false →
      hasKw e typeKws = true → categorize_errors e = "type") ∧
    (∀ e, hasKw e synKws = false → hasKw e undeclaredKws = false →
      hasKw e typeKws = false → hasKw e widthKws = true →
      categorize_errors e = "width") ∧
    (∀ e, hasKw e synKws = false → hasKw e undeclaredKws = false →
      hasKw e typeKws = false → hasKw e widthKws = false →
      hasKw e latchKws = true → categorize_errors e = "latch") ∧
    (∀ e, hasKw e synKws = false → hasKw e undeclaredKws = false →
      hasKw e typeKws = false → hasKw e widthKws = false →
      hasKw e latchKws = false → hasKw e timingKws = true →
      categorize_errors e = "timing") ∧
    (∀ e, hasKw e synKws = false → hasKw e undeclaredKws = false →
      hasKw e typeKws = false → hasKw e widthKws = false →
      hasKw e latchKws = false → hasKw e timingKws = false →
      categorize_errors e = "general") ∧
    categorize_errors "Boo: syntax error near X; undeclared signal Y" = "syntax" := by
  refine ⟨?_, ?_, ?_, ?_, ?_, ?_, ?_, ?_, by decide⟩
  · intro e
    unfold categorize_errors
    repeat' split
    all_goals decide
  · intro e h1
    simp [categorize_errors, h1]
  · intro e h1 h2
    simp [categorize_errors, h1, h2]
  · intro e h1 h2 h3
    simp [categorize_errors, h1, h2, h3]
  · intro e h1 h2 h3 h4
    simp [categorize_errors, h1, h2, h3, h4]
  · intro e h1 h2 h3 h4 h5
    simp [categorize_errors, h1, h2, h3, h4, h5]
  · intro e h1 h2 h3 h4 h5 h6
    simp [categorize_errors, h1, h2, h3, h4, h5, h6]
  · intro e h1 h2 h3 h4 h5 h6
    simp [categorize_errors, h1, h2, h3, h4, h5, h6]

/-- C8 witness: the syntax group applied to a concrete diagnostic. -/
theorem categorize_errors_priority_witness :
    categorize_errors "Syntax Error: foo" = "syntax" :=
  categorize_errors_priority.2.1 "Syntax Error: foo" (by decide)

/-- Python `\s` on the ASCII range (the characters the `re` module's `\s`
matches on ASCII text): space, tab, newline, carriage return, vertical
tab, form feed. -/
def isWsPy (c : Char) : Bool :=
  c == ' ' || c == '\t' || c == '\n' || c == '\r' || c == '\x0b' || c == '\x0c'

/-- Python `\w` on the ASCII range: letters, digits, underscore. -/
def isWordPy (c : Char) : Bool := c.isAlpha || c.isDigit || c == '_'

/-- Case-insensitive literal match at the head of the text (the effect of
`re.IGNORECASE` on a literal, ASCII case folding). -/
def ciStarts : List Char → List Char → Bool
  | [], _ => true
  | _ :: _, [] => false
  | p :: ps, c :: cs => (p.toLower == c.toLower) && ciStarts ps cs

/-- The regex constructs appearing in `ResponseParser.extract_verilog`
(`response_parser.py`, lines 35–53): case-insensitive literals, an ordered
alternation of literals (`(?:verilog|systemverilog|sv)`), greedy `\s*`,
greedy `\s+`, greedy `\w+`, and lazy `(.*?)` under `re.DOTALL`. -/
inductive RE where
  | lit (s : List Char)
  | alts (ls : List (List Char))
  | wsStar
  | wsPlus
  | wordPlus
  | anyLazy

/-- Length of the maximal run of `p`-characters at the head of the text
(the candidate space of a greedy `\s*`/`\s+`/`\w+`). -/
def runLen (p : Char → Bool) (cs : List Char) : Nat := (cs.takeWhile p).length

/-- `n, n-1, …, lo` (empty when `n < lo`): the order in which a greedy
repetition hands candidate lengths to the continuation (longest first). -/
def descend : Nat → Nat → List Nat
  | 0, lo => if lo = 0 then [0] else []
  | n + 1, lo => if n + 1 < lo then [] else (n + 1) :: descend n lo

/-- Match a pattern sequence at the head of `cs` with Python's
backtracking preference order: an alternation tries its branches in
listed order, a greedy repetition tries the longest candidate first
(`descend`), the lazy `(.*?)` tries the shortest first (`List.range`
ascending); the first full match of the remaining sequence wins.  Returns
the text consumed by the (single) lazy group and the remaining suffix. -/
def matchSeq : List RE → List Char → Option (List Char × List Char)
  | [], cs => some ([], cs)
  | .lit s :: ps, cs =>
      if ciStarts s cs then matchSeq ps (cs.drop s.length) else none
  | .alts ls :: ps, cs =>
      ls.findSome? (fun l => if ciStarts l cs then matchSeq ps (cs.drop l.length) else none)
  | .wsStar :: ps, cs =>
      (descend (runLen isWsPy cs) 0).findSome? (fun k => matchSeq ps (cs.drop k))
  | .wsPlus :: ps, cs =>
      (descend (runLen isWsPy cs) 1).findSome? (fun k => matchSeq ps (cs.drop k))
  | .wordPlus :: ps, cs =>
      (descend (runLen isWordPy cs) 1).findSome? (fun k => matchSeq ps (cs.drop k))
  | .anyLazy :: ps, cs =>
      (List.range (cs.length + 1)).findSome?
        (fun k => (matchSeq ps (cs.drop k)).map (fun pr => (cs.take k, pr.2)))

/-- `re.search` leftmost semantics, returning the lazy group's capture
(group 1 of the fenced-block patterns). -/
def searchCap (p : List RE) : List Char → Option (List Char)
  | [] => (matchSeq p []).map (fun pr => pr.1)
  | c :: t =>
      match matchSeq p (c :: t) with
      | some pr => some pr.1
      | none => searchCap p t

/-- `re.search` leftmost semantics, returning the whole matched span
(group 1 of the module-boundary pattern wraps the entire pattern). -/
def searchWhole (p : List RE) : List Char → Option (List Char)
  | [] => (matchSeq p []).map (fun _ => [])
  | c :: t =>
      match matchSeq p (c :: t) with
      | some pr => some ((c :: t).take ((c :: t).length - pr.2.length))
      | none => searchWhole p t

/-- Pattern 1 of `extract_verilog`: the tagged fenced block
(three backticks, a language tag, optional whitespace, newline, lazy body,
newline plus three backticks). -/
def fenceLangPattern : List RE :=
  [.lit "```".data, .alts ["verilog".data, "systemverilog".data, "sv".data],
   .wsStar, .lit "\n".data, .anyLazy, .lit "\n```".data]

/-- Pattern 2 of `extract_verilog`: the untagged fenced block. -/
def fencePlainPattern : List RE :=
  [.lit "```".data, .wsStar, .lit "\n".data, .anyLazy, .lit "\n```".data]

/-- Pattern 3 of `extract_verilog`: the module boundary
(keyword, whitespace, identifier, lazy body, closing keyword). -/
def modulePattern : List RE :=
  [.lit "module".data, .wsPlus, .wordPlus, .anyLazy, .lit "endmodule".data]

/-- Python `str.strip()` over the whitespace set. -/
def pyStrip (cs : List Char) : List Char :=
  ((cs.dropWhile isWsPy).reverse.dropWhile isWsPy).reverse

/-- `ResponseParser.extract_verilog` (`response_parser.py`, lines 14–61):
empty input short-circuits; otherwise the two fenced-block patterns are
tried in order (returning the stripped capture group); otherwise, when the
lowercased text contains `"module "`, the module-boundary pattern's whole
match is returned stripped; otherwise the stripped raw text. -/
def extract_verilog (response : List Char) : List Char :=
  if response.isEmpty then []
  else
    match searchCap fenceLangPattern response with
    | some code => pyStrip code
    | none =>
      match searchCap fencePlainPattern response with
      | some code => pyStrip code
      | none =>
        if containsSub "module ".data (response.map Char.toLower) then
          match searchWhole modulePattern response with
          | some code => pyStrip code
          | none => pyStrip response
        else pyStrip response

/-- A fence-free text with two module…endmodule blocks. -/
def multiModuleText : List Char := "module a(x); endmodule module b(y); endmodule".data

/-- A fence-free prose text with a single module…endmodule block. -/
def proseModuleText : List Char :=
  "Sure: here is the design. module top(a,b); assign a = b; endmodule Enjoy.".data

/-- C7 counterexample: on a fence-free text with two module blocks the
extractor's span ends at the first `endmodule` (the pattern's `.*?` is
lazy), not at the last one as the claim's greedy reading asserts — the
claimed result would be the whole two-block text. -/
theorem extract_verilog_not_greedy :
    extract_verilog multiModuleText ≠ multiModuleText ∧
    extract_verilog multiModuleText = "module a(x); endmodule".data := by
  constructor
  · decide
  · decide


theorem matchSeq_nil (cs : List Char) : matchSeq [] cs = some ([], cs) := rfl

theorem matchSeq_lit (s : List Char) (ps : List RE) (cs : List Char) :
    matchSeq (.lit s :: ps) cs =
      (if ciStarts s cs then matchSeq ps (cs.drop s.length) else none) := rfl

theorem matchSeq_wsPlus (ps : List RE) (cs : List Char) :
    matchSeq (.wsPlus :: ps) cs =
      (descend (runLen isWsPy cs) 1).findSome? (fun k => matchSeq ps (cs.drop k)) := rfl

theorem matchSeq_wordPlus (ps : List RE) (cs : List Char) :
    matchSeq (.wordPlus :: ps) cs =
      (descend (runLen isWordPy cs) 1).findSome? (fun k => matchSeq ps (cs.drop k)) := rfl

theorem matchSeq_anyLazy (ps : List RE) (cs : List Char) :
    matchSeq (.anyLazy :: ps) cs =
      (List.range (cs.length + 1)).findSome?
        (fun k => (matchSeq ps (cs.drop k)).map (fun pr => (cs.take k, pr.2))) := rfl

theorem ciStarts_self_append (l x : List Char) : ciStarts l (l ++ x) = true := by
  induction l with
  | nil => rfl
  | cons a t ih => simp [ciStarts, ih]

theorem word_not_ws (c : Char) (h : isWordPy c = true) : isWsPy c = false := by
  cases hws : isWsPy c
  · rfl
  · simp only [isWsPy, Bool.or_eq_true, beq_iff_eq] at hws
    rcases hws with ((((h1 | h1) | h1) | h1) | h1) | h1 <;>
      (subst h1; exact absurd h (by decide))

theorem takeWhile_append_head (p : Char → Bool) (w : List Char) (d : Char)
    (rest : List Char) (hw : ∀ c ∈ w, p c = true) (hd : p d = false) :
    (w ++ d :: rest).takeWhile p = w := by
  induction w with
  | nil => simp [List.takeWhile_cons, hd]
  | cons a t ih =>
    have ha : p a = true := hw a (by simp)
    simp [List.takeWhile_cons, ha, ih (fun c hc => hw c (by simp [hc]))]

theorem runLen_append_head (p : Char → Bool) (w : List Char) (d : Char)
    (rest : List Char) (hw : ∀ c ∈ w, p c = true) (hd : p d = false) :
    runLen p (w ++ d :: rest) = w.length := by
  unfold runLen
  rw [takeWhile_append_head p w d rest hw hd]

theorem findSome_descend_head {α : Type} (f : Nat → Option α) (n lo : Nat)
    (h : lo ≤ n) (v : α) (hf : f n = some v) :
    (descend n lo).findSome? f = some v := by
  cases n with
  | zero =>
    have hlo : lo = 0 := Nat.le_zero.mp h
    subst hlo
    simp [descend, List.findSome?_cons, hf]
  | succ m =>
    have hcond : ¬(m + 1 < lo) := by omega
    simp [descend, hcond, List.findSome?_cons, hf]

theorem findSome_range_head {α : Type} (g : Nat → Option α) (m k₀ : Nat)
    (hk : k₀ < m) (hnone : ∀ k, k < k₀ → g k = none) (v : α)
    (hv : g k₀ = some v) : (List.range m).findSome? g = some v := by
  induction m generalizing g k₀ with
  | zero => omega
  | succ m ih =>
    cases k₀ with
    | zero =>
      simp [List.range_succ_eq_map, List.findSome?_cons, hv]
    | succ j =>
      have h0 : g 0 = none := hnone 0 (Nat.succ_pos j)
      simp only [List.range_succ_eq_map, List.findSome?_cons, h0,
        List.findSome?_map]
      exact ih (fun k => g (k + 1)) j (by omega)
        (fun k hk2 => hnone (k + 1) (by omega)) hv

theorem matchSeq_lit_here (s : List Char) (ps : List RE) (x : List Char) :
    matchSeq (.lit s :: ps) (s ++ x) = matchSeq ps x := by
  rw [matchSeq_lit, ciStarts_self_append]
  simp [List.drop_left]

theorem matchSeq_wsPlus_here (ps : List RE) (w : List Char) (d : Char)
    (x : List Char) (hwne : w ≠ []) (hwall : ∀ c ∈ w, isWsPy c = true)
    (hd : isWsPy d = false) (v : List Char × List Char)
    (hcont : matchSeq ps (d :: x) = some v) :
    matchSeq (.wsPlus :: ps) (w ++ d :: x) = some v := by
  rw [matchSeq_wsPlus, runLen_append_head isWsPy w d x hwall hd]
  apply findSome_descend_head _ w.length 1 (List.length_pos.mpr hwne) v
  show matchSeq ps ((w ++ d :: x).drop w.length) = some v
  rw [List.drop_left]
  exact hcont

theorem matchSeq_wordPlus_here (ps : List RE) (w : List Char) (d : Char)
    (x : List Char) (hwne : w ≠ []) (hwall : ∀ c ∈ w, isWordPy c = true)
    (hd : isWordPy d = false) (v : List Char × List Char)
    (hcont : matchSeq ps (d :: x) = some v) :
    matchSeq (.wordPlus :: ps) (w ++ d :: x) = some v := by
  rw [matchSeq_wordPlus, runLen_append_head isWordPy w d x hwall hd]
  apply findSome_descend_head _ w.length 1 (List.length_pos.mpr hwne) v
  show matchSeq ps ((w ++ d :: x).drop w.length) = some v
  rw [List.drop_left]
  exact hcont

theorem matchSeq_anyLazy_endmodule (body post : List Char)
    (hlazy : ∀ k, k < body.length →
      ciStarts "endmodule".data ((body ++ ("endmodule".data ++ post)).drop k) = false) :
    matchSeq [RE.anyLazy, .lit "endmodule".data]
      (body ++ ("endmodule".data ++ post)) = some (body, post) := by
  rw [matchSeq_anyLazy]
  apply findSome_range_head _ _ body.length
  · simp [List.length_append]
    omega
  · intro k hk
    rw [matchSeq_lit, hlazy k hk]
    simp
  · show (matchSeq [RE.lit "endmodule".data]
        ((body ++ ("endmodule".data ++ post)).drop body.length)).map
      (fun pr => ((body ++ ("endmodule".data ++ post)).take body.length, pr.2)) =
        some (body, post)
    rw [List.drop_left, List.take_left]
    rw [show "endmodule".data ++ post = "endmodule".data ++ post from rfl,
      matchSeq_lit_here, matchSeq_nil]
    rfl

theorem matchSeq_module_block (w : List Char) (i₀ : Char) (it : List Char)
    (d : Char) (bt post : List Char)
    (hwne : w ≠ []) (hwall : ∀ c ∈ w, isWsPy c = true)
    (hiall : ∀ c ∈ i₀ :: it, isWordPy c = true)
    (hd : isWordPy d = false)
    (hlazy : ∀ k, k < (d :: bt).length →
      ciStarts "endmodule".data (((d :: bt) ++ ("endmodule".data ++ post)).drop k) = false) :
    matchSeq modulePattern
      ("module".data ++ (w ++ ((i₀ :: it) ++ ((d :: bt) ++ ("endmodule".data ++ post))))) =
      some (d :: bt, post) := by
  have h4 : matchSeq [RE.anyLazy, .lit "endmodule".data]
      ((d :: bt) ++ ("endmodule".data ++ post)) = some (d :: bt, post) :=
    matchSeq_anyLazy_endmodule (d :: bt) post hlazy
  have h3 : matchSeq [RE.wordPlus, RE.anyLazy, .lit "endmodule".data]
      ((i₀ :: it) ++ (d :: (bt ++ ("endmodule".data ++ post)))) = some (d :: bt, post) :=
    matchSeq_wordPlus_here _ (i₀ :: it) d _ (by simp)
      hiall hd _ h4
  have hi₀ : isWsPy i₀ = false := word_not_ws i₀ (hiall i₀ (by simp))
  have h2 : matchSeq [RE.wsPlus, RE.wordPlus, RE.anyLazy, .lit "endmodule".data]
      (w ++ (i₀ :: (it ++ ((d :: bt) ++ ("endmodule".data ++ post))))) =
      some (d :: bt, post) :=
    matchSeq_wsPlus_here _ w i₀ _ hwne hwall hi₀ _ h3
  show matchSeq (.lit "module".data ::
      [RE.wsPlus, RE.wordPlus, RE.anyLazy, .lit "endmodule".data])
      ("module".data ++ (w ++ ((i₀ :: it) ++ ((d :: bt) ++ ("endmodule".data ++ post))))) =
      some (d :: bt, post)
  rw [matchSeq_lit_here]
  exact h2

theorem searchWhole_cons_none (p : List RE) (c : Char) (t : List Char)
    (h : matchSeq p (c :: t) = none) :
    searchWhole p (c :: t) = searchWhole p t := by
  simp [searchWhole, h]

theorem searchWhole_cons_some (p : List RE) (c : Char) (t : List Char)
    (pr : List Char × List Char) (h : matchSeq p (c :: t) = some pr) :
    searchWhole p (c :: t) = some ((c :: t).take ((c :: t).length - pr.2.length)) := by
  simp [searchWhole, h]

theorem searchWhole_append_skip (p : List RE) (pre rest : List Char)
    (h : ∀ i, i < pre.length → matchSeq p ((pre ++ rest).drop i) = none) :
    searchWhole p (pre ++ rest) = searchWhole p rest := by
  induction pre with
  | nil => rfl
  | cons a t ih =>
    have h0 : matchSeq p (a :: (t ++ rest)) = none := by
      simpa using h 0 (by simp)
    rw [List.cons_append, searchWhole_cons_none p a (t ++ rest) h0]
    apply ih
    intro i hi
    have hstep := h (i + 1) (by simp; omega)
    simpa [List.drop_succ_cons] using hstep

theorem matchSeq_module_none (x : List Char)
    (h : ciStarts "module".data x = false) : matchSeq modulePattern x = none := by
  show matchSeq (.lit "module".data ::
    [RE.wsPlus, RE.wordPlus, RE.anyLazy, .lit "endmodule".data]) x = none
  rw [matchSeq_lit, h]
  rfl

theorem pyStrip_eq_self (cs : List Char)
    (h1 : ∀ c, cs.head? = some c → isWsPy c = false)
    (h2 : ∀ c, cs.reverse.head? = some c → isWsPy c = false) :
    pyStrip cs = cs := by
  cases cs with
  | nil => rfl
  | cons a t =>
    have ha : isWsPy a = false := h1 a rfl
    unfold pyStrip
    rw [List.dropWhile_cons, if_neg (by simp [ha])]
    cases hr : (a :: t).reverse with
    | nil => exact absurd hr (by simp)
    | cons b u =>
      have hb : isWsPy b = false := h2 b (by rw [hr]; rfl)
      rw [List.dropWhile_cons, if_neg (by simp [hb]), ← hr,
        List.reverse_reverse]

/-- C7 (amended): for every raw text in which no fenced-block pattern
matches but whose lowercased text contains `"module "`, and which embeds a
structural block `module⟨ws⟩⟨identifier⟩⟨body⟩endmodule` — with the block's
keyword the first position where the module keyword occurs and no earlier
`endmodule` inside the body — `extract_verilog` returns exactly the span
from that first `module` keyword to the nearest following `endmodule`
(the pattern's `.*?` is lazy, so with several blocks the span ends at the
first `endmodule`); in particular it returns the single embedded block of
a prose text exactly, and the first of two blocks. -/
theorem extract_verilog_lazy_span :
    (∀ pre w ident body post span response : List Char,
      span = "module".data ++ w ++ ident ++ body ++ "endmodule".data →
      response = pre ++ span ++ post →
      searchCap fenceLangPattern response = none →
      searchCap fencePlainPattern response = none →
      containsSub "module ".data (response.map Char.toLower) = true →
      w ≠ [] → (∀ c ∈ w, isWsPy c = true) →
      ident ≠ [] → (∀ c ∈ ident, isWordPy c = true) →
      body ≠ [] → (∀ c ∈ body.take 1, isWordPy c = false) →
      (∀ i, i < pre.length → ciStarts "module".data (response.drop i) = false) →
      (∀ k, k < body.length →
        ciStarts "endmodule".data ((body ++ "endmodule".data ++ post).drop k) = false) →
      extract_verilog response = span) ∧
    extract_verilog proseModuleText =
      "module top(a,b); assign a = b; endmodule".data ∧
    extract_verilog multiModuleText = "module a(x); endmodule".data := by
  refine ⟨?_, by decide, by decide⟩
  intro pre w ident body post span response hspan hresp hf1 hf2 hguard
    hwne hwall hine hiall hbne hbhead hleft hlazy
  obtain ⟨i₀, it, hid⟩ := List.exists_cons_of_ne_nil hine
  obtain ⟨d, bt, hbd⟩ := List.exists_cons_of_ne_nil hbne
  subst hid hbd hresp
  have hd : isWordPy d = false := hbhead d (by simp)
  have hlazy' : ∀ k, k < (d :: bt).length →
      ciStarts "endmodule".data (((d :: bt) ++ ("endmodule".data ++ post)).drop k) =
        false := by
    intro k hk
    have hx := hlazy k hk
    rwa [List.append_assoc] at hx
  have hmatch' : matchSeq modulePattern
      ('m' :: ("odule".data ++ (w ++ ((i₀ :: it) ++
        ((d :: bt) ++ ("endmodule".data ++ post)))))) = some (d :: bt, post) :=
    matchSeq_module_block w i₀ it d bt post hwne hwall hiall hd hlazy'
  have hconsAll : span ++ post = 'm' :: ("odule".data ++ (w ++ ((i₀ :: it) ++
      ((d :: bt) ++ ("endmodule".data ++ post))))) := by
    rw [hspan]
    simp [List.append_assoc]
  have hfull : searchWhole modulePattern (pre ++ span ++ post) = some span := by
    rw [List.append_assoc]
    have hskip : searchWhole modulePattern (pre ++ (span ++ post)) =
        searchWhole modulePattern (span ++ post) := by
      apply searchWhole_append_skip
      intro i hi
      apply matchSeq_module_none
      have hx := hleft i hi
      rwa [List.append_assoc] at hx
    rw [hskip, hconsAll, searchWhole_cons_some _ _ _ _ hmatch', ← hconsAll]
    dsimp only
    have hlen : (span ++ post).length - post.length = span.length := by
      simp [List.length_append]
    rw [hlen, List.take_left]
  have hstrip : pyStrip span = span := by
    apply pyStrip_eq_self
    · intro c hc
      rw [hspan] at hc
      have hm : ("module".data ++ w ++ (i₀ :: it) ++
          (d :: bt) ++ "endmodule".data).head? = some 'm' := rfl
      rw [hm] at hc
      cases hc
      decide
    · intro c hc
      rw [hspan] at hc
      have he : ("module".data ++ w ++ (i₀ :: it) ++
          (d :: bt) ++ "endmodule".data).reverse.head? = some 'e' := by
        simp only [List.reverse_append, List.append_assoc]
        rw [show "endmodule".data.reverse = 'e' :: "ludomdne".data from by decide]
        rfl
      rw [he] at hc
      cases hc
      decide
  have hne' : pre ++ span ++ post ≠ [] := by
    intro hc
    rw [hspan] at hc
    simp [show "module".data = 'm' :: "odule".data from rfl] at hc
  have hie : (pre ++ span ++ post).isEmpty = false := by
    cases hre : pre ++ span ++ post with
    | nil => exact absurd hre hne'
    | cons x xs => rfl
  unfold extract_verilog
  rw [hie, hf1, hf2, hguard, hfull]
  exact hstrip

/-- C7 witness: the universal conjunct applied to the prose text's
decomposition, every hypothesis discharged by evaluation. -/
theorem extract_verilog_lazy_span_witness :
    extract_verilog proseModuleText =
      "module top(a,b); assign a = b; endmodule".data :=
  extract_verilog_lazy_span.1 "Sure: here is the design. ".data " ".data
    "top".data "(a,b); assign a = b; ".data " Enjoy.".data
    "module top(a,b); assign a = b; endmodule".data proseModuleText
    (by decide) (by decide) (by decide) (by decide) (by decide) (by decide)
    (by decide) (by decide) (by decide) (by decide) (by decide) (by decide)
    (by decide)
